import Mathlib

/-!
Verification of the ai-smart-queue job lifecycle engine.

The Go sources are shallowly embedded: pure domain functions become Lean
functions, and stateful service methods become explicit state passing over a
metadata-store value together with an ordered trace of the external effects
they perform (repository updates, dispatch-channel pushes, DLQ moves, spawned
analyzer calls).  Machine integers (Go int) are modelled as Int; none of the
verified claims reaches the int64 overflow range.  Wall-clock reads
(time.Now) and UUID generation become explicit `now` / `freshId` arguments.
A Go nil-pointer panic is modelled by an Option result, with `none` marking
the panic.
-/

namespace AISmartQueue

/-- Job processing status, from the Status constants of the queue domain
package (part_005 of the sources). -/
inductive Status
  | pending
  | processing
  | completed
  | failed
  | retrying
deriving DecidableEq, Repr

/-- The core job entity (struct Job in the queue domain package).  Go
`uuid.UUID` identifiers are modelled as Nat, timestamps as Int, and the
opaque payload bytes as a String. -/
structure Job where
  id : Nat
  queue : String
  jobType : String
  status : Status
  attempts : Int
  payload : String
  errorMsg : String
  scheduledFor : Option Int
  createdAt : Int
  updatedAt : Int
deriving DecidableEq, Repr

/-- Domain errors of the queue package (ErrInvalidQueue, ErrInvalidType,
ErrMaxAttemptsReached, ErrJobNotFound). -/
inductive QErr
  | invalidQueue
  | invalidType
  | maxAttemptsReached
  | jobNotFound
deriving DecidableEq, Repr

/-- NewJob: validates queue and type (queue checked first), then builds a
pending job with zero attempts.  uuid.New() and time.Now() become the
explicit freshId and now arguments. -/
def NewJob (queue jobType payload : String) (freshId : Nat) (now : Int) :
    Except QErr Job :=
  if queue = "" then Except.error QErr.invalidQueue
  else if jobType = "" then Except.error QErr.invalidType
  else Except.ok
    { id := freshId
      queue := queue
      jobType := jobType
      status := Status.pending
      attempts := 0
      payload := payload
      errorMsg := ""
      scheduledFor := none
      createdAt := now
      updatedAt := now }

/-- Job.CanRetry: attempts below the bound and status failed. -/
def Job.CanRetry (j : Job) (maxAttempts : Int) : Bool :=
  decide (j.attempts < maxAttempts ∧ j.status = Status.failed)

/-- Job.MarkAsProcessing. -/
def Job.MarkAsProcessing (j : Job) (now : Int) : Job :=
  { j with status := Status.processing, updatedAt := now }

/-- Job.MarkAsCompleted. -/
def Job.MarkAsCompleted (j : Job) (now : Int) : Job :=
  { j with status := Status.completed, updatedAt := now }

/-- Job.MarkAsFailed: sets status failed, stores err.Error(), increments
attempts.  The Go method dereferences the error interface unconditionally,
so a nil error is a runtime panic: modelled by the none result. -/
def Job.MarkAsFailed (j : Job) (err : Option String) (now : Int) : Option Job :=
  match err with
  | none => none
  | some msg =>
    some { j with
      status := Status.failed
      errorMsg := msg
      attempts := j.attempts + 1
      updatedAt := now }

/-- Job.MarkAsRetrying. -/
def Job.MarkAsRetrying (j : Job) (now : Int) : Job :=
  { j with status := Status.retrying, updatedAt := now }

/-- Job.Schedule: records the future execution time. -/
def Job.Schedule (j : Job) (scheduledFor : Int) (now : Int) : Job :=
  { j with scheduledFor := some scheduledFor, updatedAt := now }

/-- Worker configuration (WorkerConfig in the worker domain package). -/
structure WorkerConfig where
  queueName : String
  maxAttempts : Int
  baseBackoffMs : Int
  pollIntervalMs : Int
deriving DecidableEq, Repr

/-- CalculateBackoff from the worker domain package: negative attempts are
clamped to zero, then baseMs * (1 << attempt).  The result is the backoff in
milliseconds (Go wraps it into a time.Duration). -/
def CalculateBackoff (attempt : Int) (baseMs : Int) : Int :=
  let a := if attempt < 0 then 0 else attempt
  baseMs * (2 ^ a.toNat)

/-- C2: for attempts in [0, 8] and base in {100, 500, 1000} the backoff is
base * 2 ^ attempts milliseconds, and negative attempts are clamped to zero,
giving exactly the base. -/
theorem calculateBackoff_law (attempt baseMs : Int) :
    (0 ≤ attempt → attempt ≤ 8 →
      (baseMs = 100 ∨ baseMs = 500 ∨ baseMs = 1000) →
      CalculateBackoff attempt baseMs = baseMs * 2 ^ attempt.toNat)
    ∧ (attempt < 0 → CalculateBackoff attempt baseMs = baseMs) := by
  constructor
  · intro h0 _ _
    simp [CalculateBackoff, not_lt.mpr h0]
  · intro hneg
    simp [CalculateBackoff, hneg]

/-- Witness for C2 at attempts 3, base 500 and at attempts -1, base 500. -/
theorem calculateBackoff_law_witness :
    CalculateBackoff 3 500 = 500 * 2 ^ (3 : Int).toNat ∧
    CalculateBackoff (-1) 500 = 500 :=
  ⟨(calculateBackoff_law 3 500).1 (by decide) (by decide) (Or.inr (Or.inl rfl)),
   (calculateBackoff_law (-1) 500).2 (by decide)⟩

/-- One observable external effect of a service method, in call order:
a metadata-store update, a dispatch-channel push, a DLQ move, a spawned
detached analyzer call, or a channel acknowledge. -/
inductive FxEvent
  | update (j : Job)
  | enqueue (j : Job)
  | moveToDLQ (id : Nat)
  | spawnAnalyze (id : Nat)
  | ack (id : Nat)
deriving DecidableEq, Repr

/-- handleJobFailure from the worker application service, on the path where
the repository and the channel succeed (infrastructure errors abort the Go
method early and are outside the verified claims).  The insightsService
nil-check becomes the hasInsights flag; the execution error is an Option
because the Go method passes it straight into Job.MarkAsFailed, whose nil
dereference panics (none result).  The returned trace lists the effects in
the order the Go method performs them: the detached analyzer spawn (iff
insights are wired and the post-increment attempt count is exactly 1), then
either update followed by re-enqueue (retry branch) or DLQ move followed by
update (terminal branch). -/
def handleJobFailure (hasInsights : Bool) (cfg : WorkerConfig) (job : Job)
    (execError : Option String) (now : Int) : Option (Job × List FxEvent) :=
  match job.MarkAsFailed execError now with
  | none => none
  | some job1 =>
    let analyzeFx : List FxEvent :=
      if hasInsights = true ∧ job1.attempts = 1 then [FxEvent.spawnAnalyze job1.id]
      else []
    if job1.CanRetry cfg.maxAttempts then
      let backoff := CalculateBackoff job1.attempts cfg.baseBackoffMs
      let job2 := (job1.Schedule (now + backoff) now).MarkAsRetrying now
      some (job2, analyzeFx ++ [FxEvent.update job2, FxEvent.enqueue job2])
    else
      some (job1, analyzeFx ++ [FxEvent.moveToDLQ job1.id, FxEvent.update job1])

/-- C1: when the post-increment attempt count has reached max_attempts, the
failure handler persists the failed job (attempts incremented, error set),
moves it to the DLQ, and performs no re-enqueue. -/
theorem handleJobFailure_maxAttempts_dlq (en : Bool) (cfg : WorkerConfig)
    (j : Job) (e : String) (now : Int)
    (h : cfg.maxAttempts ≤ j.attempts + 1) :
    ∃ tr : List FxEvent,
      handleJobFailure en cfg j (some e) now =
        some ({ j with status := Status.failed, errorMsg := e,
                       attempts := j.attempts + 1, updatedAt := now }, tr)
      ∧ FxEvent.update { j with status := Status.failed, errorMsg := e,
                                attempts := j.attempts + 1, updatedAt := now } ∈ tr
      ∧ FxEvent.moveToDLQ j.id ∈ tr
      ∧ ∀ x : Job, FxEvent.enqueue x ∉ tr := by
  have hlt : ¬ (j.attempts + 1 < cfg.maxAttempts) := not_lt.mpr h
  refine ⟨(if en = true ∧ j.attempts + 1 = 1 then [FxEvent.spawnAnalyze j.id]
            else []) ++
          [FxEvent.moveToDLQ j.id,
           FxEvent.update { j with status := Status.failed, errorMsg := e,
                                   attempts := j.attempts + 1, updatedAt := now }],
         ?_, ?_, ?_, ?_⟩
  · simp [handleJobFailure, Job.MarkAsFailed, Job.CanRetry, hlt]
  · by_cases hc : en = true ∧ j.attempts + 1 = 1 <;> simp [hc]
  · by_cases hc : en = true ∧ j.attempts + 1 = 1 <;> simp [hc]
  · intro x
    by_cases hc : en = true ∧ j.attempts + 1 = 1 <;> simp [hc]

/-- Witness for C1: a job with two prior attempts under max_attempts 3. -/
theorem handleJobFailure_maxAttempts_dlq_witness :
    ∃ tr : List FxEvent,
      handleJobFailure true ⟨"default", 3, 500, 5000⟩
          ⟨1, "default", "email", Status.processing, 2, "x", "", none, 0, 0⟩
          (some "boom") 7 =
        some ({ id := 1, queue := "default", jobType := "email",
                status := Status.failed, errorMsg := "boom", attempts := 3,
                payload := "x", scheduledFor := none, createdAt := 0,
                updatedAt := 7 }, tr)
      ∧ FxEvent.update { id := 1, queue := "default", jobType := "email",
                         status := Status.failed, errorMsg := "boom",
                         attempts := 3, payload := "x", scheduledFor := none,
                         createdAt := 0, updatedAt := 7 } ∈ tr
      ∧ FxEvent.moveToDLQ 1 ∈ tr
      ∧ ∀ x : Job, FxEvent.enqueue x ∉ tr :=
  handleJobFailure_maxAttempts_dlq true ⟨"default", 3, 500, 5000⟩
    ⟨1, "default", "email", Status.processing, 2, "x", "", none, 0, 0⟩
    "boom" 7 (by decide)

/-- C3: with the insights service wired, the failure handler spawns the
detached analyzer call exactly when this failure made the post-increment
attempt count 1, in both the retry and the DLQ branch. -/
theorem handleJobFailure_analyze_first_failure (cfg : WorkerConfig) (j : Job)
    (e : String) (now : Int) (j1 : Job) (tr : List FxEvent)
    (h : handleJobFailure true cfg j (some e) now = some (j1, tr)) :
    FxEvent.spawnAnalyze j.id ∈ tr ↔ j.attempts + 1 = 1 := by
  by_cases hc : j.attempts + 1 = 1 <;>
    simp only [handleJobFailure, Job.MarkAsFailed, true_and, hc, if_true,
      if_false, eq_self_iff_true, iff_true, iff_false] at h ⊢ <;>
  · split at h <;>
    · obtain ⟨rfl, rfl⟩ := Prod.mk.injEq .. ▸ Option.some.inj h
      simp [hc]

/-- Witness for C3: first failure of a fresh job spawns the analyzer call. -/
theorem handleJobFailure_analyze_first_failure_witness :
    FxEvent.spawnAnalyze 1 ∈
      [FxEvent.spawnAnalyze 1,
       FxEvent.update { id := 1, queue := "default", jobType := "email",
                        status := Status.retrying, errorMsg := "boom",
                        attempts := 1, payload := "x",
                        scheduledFor := some 1007, createdAt := 0,
                        updatedAt := 7 },
       FxEvent.enqueue { id := 1, queue := "default", jobType := "email",
                         status := Status.retrying, errorMsg := "boom",
                         attempts := 1, payload := "x",
                         scheduledFor := some 1007, createdAt := 0,
                         updatedAt := 7 }] ↔ (0 : Int) + 1 = 1 :=
  handleJobFailure_analyze_first_failure ⟨"default", 3, 500, 5000⟩
    ⟨1, "default", "email", Status.processing, 0, "x", "", none, 0, 0⟩
    "boom" 7 _ _ rfl

/-- The metadata store as seen through the JobRepository port: the list of
persisted job rows. -/
structure QueueState where
  jobs : List Job
deriving DecidableEq, Repr

/-- JobRepository.GetByID: the stored row with the given id. -/
def getByID (st : QueueState) (jobID : Nat) : Option Job :=
  st.jobs.find? (fun j => decide (j.id = jobID))

/-- JobRepository.Update: rewrite the row keyed by the job's id. -/
def updateJob (st : QueueState) (job : Job) : QueueState :=
  { jobs := st.jobs.map (fun x => if x.id = job.id then job else x) }

/-- CreateJob from the queue application service: marshal the payload
(already bytes here), validate through NewJob, then persist and enqueue.
A validation error returns before any store write or channel push. -/
def CreateJob (st : QueueState) (queueName jobType payload : String)
    (freshId : Nat) (now : Int) :
    Except QErr Job × QueueState × List FxEvent :=
  match NewJob queueName jobType payload freshId now with
  | Except.error e => (Except.error e, st, [])
  | Except.ok job =>
    (Except.ok job, { jobs := st.jobs ++ [job] }, [FxEvent.enqueue job])

/-- RetryJob from the queue application service: load the job, reject with
ErrMaxAttemptsReached unless CanRetry holds, else mark retrying, update the
store and re-enqueue. -/
def RetryJob (st : QueueState) (jobID : Nat) (maxAttempts : Int) (now : Int) :
    Option QErr × QueueState × List FxEvent :=
  match getByID st jobID with
  | none => (some QErr.jobNotFound, st, [])
  | some job =>
    if !(job.CanRetry maxAttempts) then (some QErr.maxAttemptsReached, st, [])
    else
      let job1 := job.MarkAsRetrying now
      (none, updateJob st job1, [FxEvent.update job1, FxEvent.enqueue job1])

/-- UpdateJobStatus from the queue application service.  The Go switch maps
the target status to the matching Job transition and falls through to a
single repository update; the failed case passes a nil error into
Job.MarkAsFailed, so the outer Option marks the resulting panic. -/
def UpdateJobStatus (st : QueueState) (jobID : Nat) (status : Status)
    (now : Int) : Option (Option QErr × QueueState × List FxEvent) :=
  match getByID st jobID with
  | none => some (some QErr.jobNotFound, st, [])
  | some job =>
    let job1opt : Option Job :=
      match status with
      | Status.processing => some (job.MarkAsProcessing now)
      | Status.completed => some (job.MarkAsCompleted now)
      | Status.failed => job.MarkAsFailed none now
      | _ => some job
    match job1opt with
    | none => none
    | some job1 => some (none, updateJob st job1, [FxEvent.update job1])

/-- JobRepository.CountByStatus. -/
def countByStatus (st : QueueState) (status : Status) : Nat :=
  (st.jobs.filter (fun j => decide (j.status = status))).length

/-- JobRepository.CountDLQJobs: failed rows with at least 3 attempts (the
max_attempts constant is hardcoded to 3 in the repository queries). -/
def countDLQJobs (st : QueueState) : Nat :=
  (st.jobs.filter (fun j => decide (j.status = Status.failed ∧ 3 ≤ j.attempts))).length

/-- GetMetrics from the queue application service: one count per status in
the loop order of the Go code (pending, processing, completed, failed —
retrying is absent from the loop), then the DLQ count. -/
def GetMetrics (st : QueueState) : List (String × Nat) :=
  [("pending", countByStatus st Status.pending),
   ("processing", countByStatus st Status.processing),
   ("completed", countByStatus st Status.completed),
   ("failed", countByStatus st Status.failed),
   ("dlq", countDLQJobs st)]

/-- C5: for a stored failed job, RetryJob at or past the attempt bound fails
with ErrMaxAttemptsReached, leaves the store unchanged and pushes nothing,
while below the bound it marks the job retrying, updates the store and
re-pushes the envelope. -/
theorem retryJob_dlq_and_retry (st : QueueState) (jobID : Nat)
    (maxAttempts now : Int) (j : Job)
    (hfind : getByID st jobID = some j) (hfail : j.status = Status.failed) :
    (maxAttempts ≤ j.attempts →
      RetryJob st jobID maxAttempts now = (some QErr.maxAttemptsReached, st, []))
    ∧ (j.attempts < maxAttempts →
      RetryJob st jobID maxAttempts now =
        (none, updateJob st (j.MarkAsRetrying now),
         [FxEvent.update (j.MarkAsRetrying now),
          FxEvent.enqueue (j.MarkAsRetrying now)])) := by
  constructor
  · intro hge
    simp [RetryJob, hfind, Job.CanRetry, not_lt.mpr hge]
  · intro hlt
    simp [RetryJob, hfind, Job.CanRetry, hlt, hfail]

/-- Witness for C5: a DLQ job (attempts 3, max 3) is rejected, and the same
job under max 5 is marked retrying and re-enqueued. -/
theorem retryJob_dlq_and_retry_witness :
    RetryJob ⟨[⟨1, "default", "email", Status.failed, 3, "x", "e", none, 0, 0⟩]⟩
        1 3 9 =
      (some QErr.maxAttemptsReached,
       ⟨[⟨1, "default", "email", Status.failed, 3, "x", "e", none, 0, 0⟩]⟩, [])
    ∧ RetryJob ⟨[⟨1, "default", "email", Status.failed, 3, "x", "e", none, 0, 0⟩]⟩
        1 5 9 =
      (none,
       updateJob ⟨[⟨1, "default", "email", Status.failed, 3, "x", "e", none, 0, 0⟩]⟩
         (Job.MarkAsRetrying ⟨1, "default", "email", Status.failed, 3, "x", "e", none, 0, 0⟩ 9),
       [FxEvent.update (Job.MarkAsRetrying ⟨1, "default", "email", Status.failed, 3, "x", "e", none, 0, 0⟩ 9),
        FxEvent.enqueue (Job.MarkAsRetrying ⟨1, "default", "email", Status.failed, 3, "x", "e", none, 0, 0⟩ 9)]) :=
  ⟨(retryJob_dlq_and_retry
      ⟨[⟨1, "default", "email", Status.failed, 3, "x", "e", none, 0, 0⟩]⟩ 1 3 9
      ⟨1, "default", "email", Status.failed, 3, "x", "e", none, 0, 0⟩
      rfl rfl).1 (by decide),
   (retryJob_dlq_and_retry
      ⟨[⟨1, "default", "email", Status.failed, 3, "x", "e", none, 0, 0⟩]⟩ 1 5 9
      ⟨1, "default", "email", Status.failed, 3, "x", "e", none, 0, 0⟩
      rfl rfl).2 (by decide)⟩

/-- C6 counterexample: with both queue and type empty, CreateJob fails with
ErrInvalidQueue, not ErrInvalidType, because the queue check runs first; so
the claim that an empty type always yields InvalidType is false. -/
theorem createJob_bothEmpty_invalidQueue :
    (CreateJob ⟨[]⟩ "" "" "x" 1 0).1 = Except.error QErr.invalidQueue
    ∧ (CreateJob ⟨[]⟩ "" "" "x" 1 0).1 ≠ Except.error QErr.invalidType :=
  ⟨rfl, fun h => QErr.noConfusion (Except.error.inj h)⟩

/-- C6 amended: an empty queue fails with ErrInvalidQueue; an empty type
with a non-empty queue fails with ErrInvalidType; in both cases the store is
untouched and nothing is enqueued. -/
theorem createJob_validation_no_side_effects (st : QueueState)
    (q ty p : String) (freshId : Nat) (now : Int) :
    (q = "" →
      CreateJob st q ty p freshId now = (Except.error QErr.invalidQueue, st, []))
    ∧ (q ≠ "" → ty = "" →
      CreateJob st q ty p freshId now = (Except.error QErr.invalidType, st, [])) := by
  constructor
  · intro hq
    simp [CreateJob, NewJob, hq]
  · intro hq hty
    simp [CreateJob, NewJob, hq, hty]

/-- Witness for C6: empty queue and, separately, empty type with a non-empty
queue, on a concrete store. -/
theorem createJob_validation_no_side_effects_witness :
    CreateJob ⟨[]⟩ "" "email" "x" 1 0 = (Except.error QErr.invalidQueue, ⟨[]⟩, [])
    ∧ CreateJob ⟨[]⟩ "default" "" "x" 1 0 = (Except.error QErr.invalidType, ⟨[]⟩, []) :=
  ⟨(createJob_validation_no_side_effects ⟨[]⟩ "" "email" "x" 1 0).1 rfl,
   (createJob_validation_no_side_effects ⟨[]⟩ "default" "" "x" 1 0).2
     (by decide) rfl⟩

/-- C8 counterexample: the metrics map of the empty store has entries for
pending, processing, completed, failed and dlq but none for retrying, so the
claim that every job status is counted is false. -/
theorem getMetrics_missing_retrying :
    (GetMetrics ⟨[]⟩).lookup "retrying" = none := rfl

/-- C8 amended: GetMetrics returns counts for the four statuses pending,
processing, completed and failed plus the DLQ count; the retrying status is
skipped by the loop and has no entry. -/
theorem getMetrics_counts (st : QueueState) :
    (GetMetrics st).lookup "pending" = some (countByStatus st Status.pending)
    ∧ (GetMetrics st).lookup "processing" = some (countByStatus st Status.processing)
    ∧ (GetMetrics st).lookup "completed" = some (countByStatus st Status.completed)
    ∧ (GetMetrics st).lookup "failed" = some (countByStatus st Status.failed)
    ∧ (GetMetrics st).lookup "dlq" = some (countDLQJobs st)
    ∧ (GetMetrics st).lookup "retrying" = none :=
  ⟨rfl, rfl, rfl, rfl, rfl, rfl⟩

/-- C10: on a store holding job 1, UpdateJobStatus towards failed panics
(Job.MarkAsFailed dereferences the nil error the service passes), so the
operation is not total: the model returns the panic marker none instead of
persisting the failed job. -/
theorem updateJobStatus_failed_panics :
    UpdateJobStatus
      ⟨[⟨1, "default", "email", Status.processing, 0, "x", "", none, 0, 0⟩]⟩
      1 Status.failed 5 = none := rfl

/-- One JSON scalar, the value type for payload patches.  The map-overlay
semantics verified below is independent of the value shape, so nested
documents are not modelled. -/
inductive Jval
  | str (s : String)
  | num (n : Int)
  | boolean (b : Bool)
  | null
deriving DecidableEq, Repr

/-- SuggestedFix from the insights domain package. -/
structure SuggestedFix where
  timeoutSeconds : Int
  maxRetries : Int
  payloadPatch : List (String × Jval)
deriving DecidableEq, Repr

/-- Insight from the insights domain package. -/
structure Insight where
  id : Nat
  jobID : Nat
  diagnosis : String
  recommendation : String
  suggestedFix : SuggestedFix
  createdAt : Int
deriving DecidableEq, Repr

/-- Insight domain errors (ErrInvalidJobID, ErrInvalidAnalysisData,
ErrInsightNotFound) together with the errors the application service passes
through: a missing job and a failed AI call. -/
inductive IErr
  | invalidJobID
  | invalidAnalysisData
  | insightNotFound
  | jobNotFound
  | aiFailure (msg : String)
deriving DecidableEq, Repr

/-- AnalysisRequest: the data packed for the remote analyzer (job id, last
error, payload bytes). -/
structure AnalysisRequest where
  jobID : Nat
  errorMsg : String
  payload : String
deriving DecidableEq, Repr

/-- AnalysisResponse returned by the remote analyzer. -/
structure AnalysisResponse where
  diagnosis : String
  recommendation : String
  suggestedFix : SuggestedFix
deriving DecidableEq, Repr

/-- NewInsight: rejects the nil UUID (0 here) and an empty diagnosis, then
builds the insight.  uuid.New() and time.Now() are the explicit freshId and
now arguments. -/
def NewInsight (jobID : Nat) (response : AnalysisResponse) (freshId : Nat)
    (now : Int) : Except IErr Insight :=
  if jobID = 0 then Except.error IErr.invalidJobID
  else if response.diagnosis = "" then Except.error IErr.invalidAnalysisData
  else Except.ok
    { id := freshId
      jobID := jobID
      diagnosis := response.diagnosis
      recommendation := response.recommendation
      suggestedFix := response.suggestedFix
      createdAt := now }

/-- The insights store plus a counter of remote analyzer invocations. -/
structure InsightsState where
  insights : List Insight
  aiCalls : Nat
deriving DecidableEq, Repr

/-- InsightRepository.GetByJobID: the first stored insight for the job. -/
def getByJobID (st : InsightsState) (jobID : Nat) : Option Insight :=
  st.insights.find? (fun i => decide (i.jobID = jobID))

/-- AnalyzeJobFailure from the insights application service: return the
cached insight when one exists, else load the job, invoke the remote
analyzer (counted in aiCalls), build the insight and persist it.  The job
repository is read-only here and passed as a lookup function; the remote
analyzer is the collaborator function ai. -/
def AnalyzeJobFailure (jobs : Nat → Option Job)
    (ai : AnalysisRequest → Except String AnalysisResponse)
    (freshId : Nat) (now : Int) (st : InsightsState) (jobID : Nat) :
    Except IErr Insight × InsightsState :=
  match getByJobID st jobID with
  | some existing => (Except.ok existing, st)
  | none =>
    match jobs jobID with
    | none => (Except.error IErr.jobNotFound, st)
    | some job =>
      let request : AnalysisRequest :=
        { jobID := jobID, errorMsg := job.errorMsg, payload := job.payload }
      let st1 : InsightsState := { st with aiCalls := st.aiCalls + 1 }
      match ai request with
      | Except.error msg => (Except.error (IErr.aiFailure msg), st1)
      | Except.ok response =>
        match NewInsight jobID response freshId now with
        | Except.error e => (Except.error e, st1)
        | Except.ok insight =>
          (Except.ok insight, { st1 with insights := st1.insights ++ [insight] })

theorem newInsight_jobID {jobID : Nat} {response : AnalysisResponse}
    {freshId : Nat} {now : Int} {ins : Insight}
    (h : NewInsight jobID response freshId now = Except.ok ins) :
    ins.jobID = jobID := by
  unfold NewInsight at h
  split at h
  · exact absurd h (by simp)
  · split at h
    · exact absurd h (by simp)
    · cases h
      rfl

theorem find?_append_of_none {α : Type} {p : α → Bool} {l₁ : List α}
    (h : l₁.find? p = none) (l₂ : List α) :
    (l₁ ++ l₂).find? p = l₂.find? p := by
  induction l₁ with
  | nil => rfl
  | cons a t ih =>
    rw [List.find?_cons] at h
    cases hp : p a with
    | true => simp [hp] at h
    | false =>
      simp only [hp] at h
      simpa [List.find?_cons, hp] using ih h

/-- C4: analyze is cached and idempotent.  A cache hit returns the stored
insight with the state (hence the invocation counter) unchanged; and any
successful call is a fixed point: repeating it returns the same insight with
the same state, while the first call invoked the analyzer at most once. -/
theorem analyzeJobFailure_idempotent (jobs : Nat → Option Job)
    (ai : AnalysisRequest → Except String AnalysisResponse)
    (freshId freshId2 : Nat) (now now2 : Int) (st : InsightsState)
    (jobID : Nat) :
    (∀ i, getByJobID st jobID = some i →
      AnalyzeJobFailure jobs ai freshId now st jobID = (Except.ok i, st))
    ∧ (∀ i st', AnalyzeJobFailure jobs ai freshId now st jobID = (Except.ok i, st') →
      AnalyzeJobFailure jobs ai freshId2 now2 st' jobID = (Except.ok i, st')
      ∧ st'.aiCalls ≤ st.aiCalls + 1) := by
  constructor
  · intro i hi
    simp [AnalyzeJobFailure, hi]
  · intro i st' h
    unfold AnalyzeJobFailure at h
    cases hcache : getByJobID st jobID with
    | some existing =>
      rw [hcache] at h
      dsimp only at h
      injection h with h1 h2
      injection h1 with h1
      subst h1 h2
      exact ⟨by simp [AnalyzeJobFailure, hcache], Nat.le_succ _⟩
    | none =>
      rw [hcache] at h
      dsimp only at h
      cases hjob : jobs jobID with
      | none =>
        rw [hjob] at h
        dsimp only at h
        injection h with h1 h2
        exact absurd h1 (by simp)
      | some job =>
        rw [hjob] at h
        dsimp only at h
        cases hai : ai { jobID := jobID, errorMsg := job.errorMsg,
                         payload := job.payload } with
        | error msg =>
          rw [hai] at h
          dsimp only at h
          injection h with h1 h2
          exact absurd h1 (by simp)
        | ok response =>
          rw [hai] at h
          dsimp only at h
          cases hni : NewInsight jobID response freshId now with
          | error e =>
            rw [hni] at h
            dsimp only at h
            injection h with h1 h2
            exact absurd h1 (by simp)
          | ok insight =>
            rw [hni] at h
            dsimp only at h
            injection h with h1 h2
            injection h1 with h1
            subst h1 h2
            have hfound : getByJobID
                { insights := st.insights ++ [insight],
                  aiCalls := st.aiCalls + 1 } jobID = some insight := by
              unfold getByJobID at hcache ⊢
              dsimp only at hcache ⊢
              rw [find?_append_of_none hcache]
              simp [List.find?_cons, newInsight_jobID hni]
            exact ⟨by simp [AnalyzeJobFailure, hfound], Nat.le_refl _⟩

/-- Witness for C4: a cache miss on the empty store creates the insight and
a repeat call returns the same insight without a second invocation. -/
theorem analyzeJobFailure_idempotent_witness :
    AnalyzeJobFailure (fun _ => some ⟨1, "default", "email", Status.failed, 1, "x", "boom", none, 0, 0⟩)
        (fun _ => Except.ok ⟨"diag", "rec", ⟨0, 0, []⟩⟩) 8 4
        ⟨[⟨7, 1, "diag", "rec", ⟨0, 0, []⟩, 3⟩], 1⟩ 1 =
      (Except.ok ⟨7, 1, "diag", "rec", ⟨0, 0, []⟩, 3⟩,
       ⟨[⟨7, 1, "diag", "rec", ⟨0, 0, []⟩, 3⟩], 1⟩)
    ∧ (1 : Nat) ≤ 0 + 1 :=
  (analyzeJobFailure_idempotent
    (fun _ => some ⟨1, "default", "email", Status.failed, 1, "x", "boom", none, 0, 0⟩)
    (fun _ => Except.ok ⟨"diag", "rec", ⟨0, 0, []⟩⟩) 7 8 3 4 ⟨[], 0⟩ 1).2
    ⟨7, 1, "diag", "rec", ⟨0, 0, []⟩, 3⟩
    ⟨[⟨7, 1, "diag", "rec", ⟨0, 0, []⟩, 3⟩], 1⟩ rfl

/-- Assignment into a Go map modelled on an association list: replace the
binding when the key exists, append it otherwise. -/
def mapInsert : List (String × Jval) → String → Jval → List (String × Jval)
  | [], k, v => [(k, v)]
  | kv :: rest, k, v =>
    if kv.1 = k then (k, v) :: rest else kv :: mapInsert rest k v

/-- The patch loop of Insight.ApplySuggestedFix: assign every patch binding
into the unmarshalled payload map. -/
def applyPatch (patch payload : List (String × Jval)) : List (String × Jval) :=
  patch.foldl (fun m kv => mapInsert m kv.1 kv.2) payload

/-- Reading a key out of the modelled JSON object. -/
def lookupKey : List (String × Jval) → String → Option Jval
  | [], _ => none
  | kv :: rest, k => if kv.1 = k then some kv.2 else lookupKey rest k

/-- Insight.ApplySuggestedFix: an empty patch returns the original payload
bytes untouched; otherwise the payload is unmarshalled, overlaid with the
patch and marshalled again.  The Go json.Marshal / json.Unmarshal stdlib
collaborators become the explicit um / mar arguments; a none result models
the unmarshal error return. -/
def ApplySuggestedFix (um : String → Option (List (String × Jval)))
    (mar : List (String × Jval) → String) (i : Insight)
    (originalPayload : String) : Option String :=
  if i.suggestedFix.payloadPatch.length = 0 then some originalPayload
  else
    match um originalPayload with
    | none => none
    | some payload => some (mar (applyPatch i.suggestedFix.payloadPatch payload))

theorem lookupKey_mapInsert_self (m : List (String × Jval)) (k : String)
    (v : Jval) : lookupKey (mapInsert m k v) k = some v := by
  induction m with
  | nil => simp [mapInsert, lookupKey]
  | cons kv rest ih =>
    by_cases hk : kv.1 = k
    · simp [mapInsert, hk, lookupKey]
    · simp [mapInsert, hk, lookupKey, ih]

theorem lookupKey_mapInsert_ne (m : List (String × Jval)) (k k' : String)
    (v' : Jval) (h : k' ≠ k) :
    lookupKey (mapInsert m k' v') k = lookupKey m k := by
  induction m with
  | nil => simp [mapInsert, lookupKey, h]
  | cons kv rest ih =>
    by_cases hk : kv.1 = k'
    · simp [mapInsert, hk, lookupKey, h]
    · simp [mapInsert, hk, lookupKey, ih]

theorem lookupKey_applyPatch_not_mem (patch : List (String × Jval))
    (m : List (String × Jval)) (k : String)
    (h : k ∉ patch.map Prod.fst) :
    lookupKey (applyPatch patch m) k = lookupKey m k := by
  induction patch generalizing m with
  | nil => rfl
  | cons kv rest ih =>
    simp only [List.map_cons, List.mem_cons, not_or] at h
    have : applyPatch (kv :: rest) m = applyPatch rest (mapInsert m kv.1 kv.2) := rfl
    rw [this, ih _ h.2, lookupKey_mapInsert_ne _ _ _ _ (fun he => h.1 he.symm)]

theorem lookupKey_applyPatch_mem (patch : List (String × Jval))
    (m : List (String × Jval)) (k : String) (v : Jval)
    (hnd : (patch.map Prod.fst).Nodup) (hmem : (k, v) ∈ patch) :
    lookupKey (applyPatch patch m) k = some v := by
  induction patch generalizing m with
  | nil => cases hmem
  | cons kv rest ih =>
    have hstep : applyPatch (kv :: rest) m = applyPatch rest (mapInsert m kv.1 kv.2) := rfl
    rw [List.map_cons, List.nodup_cons] at hnd
    rcases List.mem_cons.mp hmem with heq | htail
    · subst heq
      rw [hstep, lookupKey_applyPatch_not_mem _ _ _ hnd.1,
        lookupKey_mapInsert_self]
    · exact hstep ▸ ih _ hnd.2 htail

/-- C9: the suggested-fix application is a shallow map overlay: with an
empty patch it returns the original payload bytes unchanged, and for a key
present in both the payload and the patch the overlaid payload holds the
patch's value at that key. -/
theorem applySuggestedFix_overlay (um : String → Option (List (String × Jval)))
    (mar : List (String × Jval) → String) (i : Insight) (p : String)
    (patch payload : List (String × Jval)) (k : String) (v : Jval) :
    (i.suggestedFix.payloadPatch = [] → ApplySuggestedFix um mar i p = some p)
    ∧ ((patch.map Prod.fst).Nodup → (k, v) ∈ patch → k ∈ payload.map Prod.fst →
      lookupKey (applyPatch patch payload) k = some v) := by
  constructor
  · intro hemp
    simp [ApplySuggestedFix, hemp]
  · intro hnd hmem _
    exact lookupKey_applyPatch_mem patch payload k v hnd hmem

/-- Witness for C9: the identity round-trip with an empty patch, and a
one-key patch overriding the key it shares with the payload. -/
theorem applySuggestedFix_overlay_witness :
    ApplySuggestedFix (fun _ => none) (fun _ => "")
      ⟨7, 1, "d", "r", ⟨0, 0, []⟩, 3⟩ "raw-bytes" = some "raw-bytes"
    ∧ lookupKey (applyPatch [("timeout", Jval.num 30)]
        [("timeout", Jval.num 10), ("to", Jval.str "a")]) "timeout" =
      some (Jval.num 30) :=
  ⟨(applySuggestedFix_overlay (fun _ => none) (fun _ => "")
      ⟨7, 1, "d", "r", ⟨0, 0, []⟩, 3⟩ "raw-bytes"
      [("timeout", Jval.num 30)] [("timeout", Jval.num 10), ("to", Jval.str "a")]
      "timeout" (Jval.num 30)).1 rfl,
   (applySuggestedFix_overlay (fun _ => none) (fun _ => "")
      ⟨7, 1, "d", "r", ⟨0, 0, []⟩, 3⟩ "raw-bytes"
      [("timeout", Jval.num 30)] [("timeout", Jval.num 10), ("to", Jval.str "a")]
      "timeout" (Jval.num 30)).2 (by decide) (by decide) (by decide)⟩

/-- C7: across every engine operation in the file — the Job transitions
MarkAsProcessing / MarkAsCompleted / MarkAsRetrying / Schedule /
MarkAsFailed and the service operations RetryJob, CreateJob and
handleJobFailure — the attempts counter of any job never decreases, and
only the failure transition increments it (all other transitions leave it
unchanged; CreateJob only appends fresh zero-attempt rows).  The id-Nodup
hypothesis states that store rows are keyed by a primary key. -/
theorem attempts_nondecreasing (j : Job) (n t : Int) (e : String)
    (st : QueueState) (jobID freshId : Nat) (m : Int) (q ty p : String)
    (en : Bool) (cfg : WorkerConfig)
    (hnd : (st.jobs.map Job.id).Nodup) :
    (j.MarkAsProcessing n).attempts = j.attempts
    ∧ (j.MarkAsCompleted n).attempts = j.attempts
    ∧ (j.MarkAsRetrying n).attempts = j.attempts
    ∧ (j.Schedule t n).attempts = j.attempts
    ∧ j.MarkAsFailed (some e) n =
        some { j with status := Status.failed, errorMsg := e,
                      attempts := j.attempts + 1, updatedAt := n }
    ∧ (RetryJob st jobID m n).2.1.jobs.map Job.attempts = st.jobs.map Job.attempts
    ∧ (∃ tail, (CreateJob st q ty p freshId n).2.1.jobs.map Job.attempts
        = st.jobs.map Job.attempts ++ tail ∧ ∀ a ∈ tail, a = 0)
    ∧ (∀ r ∈ handleJobFailure en cfg j (some e) n, j.attempts ≤ r.1.attempts) := by
  refine ⟨rfl, rfl, rfl, rfl, rfl, ?_, ?_, ?_⟩
  · cases hfind : getByID st jobID with
    | none => simp [RetryJob, hfind]
    | some j0 =>
      have hmem : j0 ∈ st.jobs := List.mem_of_find?_eq_some hfind
      have hid : j0.id = jobID := by
        have := List.find?_some hfind
        simpa using this
      by_cases hcr : j0.CanRetry m = true
      · simp only [RetryJob, hfind, hcr, Bool.not_true, Bool.false_eq_true,
          if_false, updateJob]
        rw [List.map_map]
        apply List.map_congr_left
        intro x hx
        by_cases hxid : x.id = (j0.MarkAsRetrying n).id
        · have hxid' : x.id = j0.id := hxid
          have hxj0 : x = j0 :=
            List.inj_on_of_nodup_map hnd hx hmem hxid'
          subst hxj0
          simp [Function.comp, Job.MarkAsRetrying]
        · simp [Function.comp, hxid]
      · simp [RetryJob, hfind, hcr]
  · by_cases hq : q = ""
    · exact ⟨[], by simp [CreateJob, NewJob, hq], by simp⟩
    · by_cases hty : ty = ""
      · exact ⟨[], by simp [CreateJob, NewJob, hq, hty], by simp⟩
      · refine ⟨[0], ?_, by simp⟩
        simp [CreateJob, NewJob, hq, hty]
  · intro r hr
    unfold handleJobFailure at hr
    simp only [Job.MarkAsFailed] at hr
    split at hr <;>
    · simp only [Option.mem_def, Option.some.injEq] at hr
      subst hr
      simp only [Job.MarkAsRetrying, Job.Schedule]
      omega

/-- Witness for C7 at a concrete job, store and configuration, with the
primary-key hypothesis checked by evaluation. -/
theorem attempts_nondecreasing_witness :
    ((⟨1, "default", "email", Status.processing, 2, "x", "", none, 0, 0⟩ : Job).MarkAsProcessing 5).attempts =
        (⟨1, "default", "email", Status.processing, 2, "x", "", none, 0, 0⟩ : Job).attempts
    ∧ ((⟨1, "default", "email", Status.processing, 2, "x", "", none, 0, 0⟩ : Job).MarkAsCompleted 5).attempts =
        (⟨1, "default", "email", Status.processing, 2, "x", "", none, 0, 0⟩ : Job).attempts
    ∧ ((⟨1, "default", "email", Status.processing, 2, "x", "", none, 0, 0⟩ : Job).MarkAsRetrying 5).attempts =
        (⟨1, "default", "email", Status.processing, 2, "x", "", none, 0, 0⟩ : Job).attempts
    ∧ ((⟨1, "default", "email", Status.processing, 2, "x", "", none, 0, 0⟩ : Job).Schedule 9 5).attempts =
        (⟨1, "default", "email", Status.processing, 2, "x", "", none, 0, 0⟩ : Job).attempts
    ∧ (⟨1, "default", "email", Status.processing, 2, "x", "", none, 0, 0⟩ : Job).MarkAsFailed (some "boom") 5 =
        some { (⟨1, "default", "email", Status.processing, 2, "x", "", none, 0, 0⟩ : Job) with
          status := Status.failed, errorMsg := "boom", attempts := (2 : Int) + 1, updatedAt := 5 }
    ∧ (RetryJob ⟨[⟨2, "default", "email", Status.failed, 1, "y", "e", none, 0, 0⟩]⟩ 2 3 5).2.1.jobs.map Job.attempts =
        (⟨[⟨2, "default", "email", Status.failed, 1, "y", "e", none, 0, 0⟩]⟩ : QueueState).jobs.map Job.attempts
    ∧ (∃ tail, (CreateJob ⟨[⟨2, "default", "email", Status.failed, 1, "y", "e", none, 0, 0⟩]⟩ "default" "email" "z" 9 5).2.1.jobs.map Job.attempts
        = (⟨[⟨2, "default", "email", Status.failed, 1, "y", "e", none, 0, 0⟩]⟩ : QueueState).jobs.map Job.attempts ++ tail
        ∧ ∀ a ∈ tail, a = 0)
    ∧ (∀ r ∈ handleJobFailure true ⟨"default", 3, 500, 5000⟩
          (⟨1, "default", "email", Status.processing, 2, "x", "", none, 0, 0⟩ : Job) (some "boom") 5,
        (⟨1, "default", "email", Status.processing, 2, "x", "", none, 0, 0⟩ : Job).attempts ≤ r.1.attempts) :=
  attempts_nondecreasing
    ⟨1, "default", "email", Status.processing, 2, "x", "", none, 0, 0⟩ 5 9 "boom"
    ⟨[⟨2, "default", "email", Status.failed, 1, "y", "e", none, 0, 0⟩]⟩ 2 9 3
    "default" "email" "z" true ⟨"default", 3, 500, 5000⟩ (by decide)

end AISmartQueue
